import Mathlib

/-!
Shallow embedding of the Resource-Action-Operator automation engine
(`internal/engine`: the rule matcher/dispatcher `K8sExecutor.Execute`,
the cron scheduler `CronEngine`, and the HTTP executor), together with
theorems about its behaviour.  Go maps are modelled as association
lists, `metav1.Time` as `Nat` (with `0` as the zero time), byte slices
as `String`, and external collaborators (the Kubernetes client, the
regexp engine, `time.ParseDuration`, the templating engine, the
network) as explicit function parameters.
-/

namespace RAO

/-- Lifecycle event kinds (`engine.EventType`). -/
inductive EventType where
  | create
  | update
  | delete
deriving DecidableEq, Repr

/-- The Go string value of an `EventType` constant. -/
def eventString : EventType → String
  | .create => "Create"
  | .update => "Update"
  | .delete => "Delete"

/-- `schema.GroupVersionKind`. -/
structure GVK where
  group : String
  version : String
  kind : String
deriving DecidableEq, Repr

/-- An object snapshot (`unstructured.Unstructured`): the accessor fields
`GetName/GetNamespace/GetUID/GetLabels` plus `raw`, the full object
content (`obj.Object`) handed to the body template, modelled as an
association list of attributes. -/
structure ObjectSnapshot where
  name : String
  nspace : String
  uid : String
  labels : List (String × String)
  raw : List (String × String)
deriving DecidableEq, Repr

/-- `engine.MatchInput`. -/
structure MatchInput where
  event : EventType
  gvk : GVK
  obj : ObjectSnapshot
deriving DecidableEq, Repr

/-- `v1alpha1.ResourceSelector`. -/
structure ResourceSelector where
  group : String
  version : String
  kind : String
deriving DecidableEq, Repr

/-- `v1alpha1.FilterSpec`; the `Labels` map is an association list. -/
structure FilterSpec where
  labels : List (String × String)
  nameRegex : String
  namespaceRegex : String
deriving DecidableEq, Repr

/-- `v1alpha1.SecretKeyRef`. -/
structure SecretKeyRef where
  name : String
  key : String
deriving DecidableEq, Repr

/-- `v1alpha1.ValueFrom`. -/
structure ValueFrom where
  secretKeyRef : Option SecretKeyRef
deriving DecidableEq, Repr

/-- `v1alpha1.TLSClientCertRef`. -/
structure TLSClientCertRef where
  name : String
  certKey : String
  keyKey : String
deriving DecidableEq, Repr

/-- `v1alpha1.TLSSpec`. -/
structure TLSSpec where
  insecureSkipVerify : Bool
  serverName : String
  caSecretRef : Option SecretKeyRef
  clientCertSecretRef : Option TLSClientCertRef
deriving DecidableEq, Repr

/-- `v1alpha1.TemplateSpec`. -/
structure TemplateSpec where
  template : String
deriving DecidableEq, Repr

/-- `v1alpha1.RetrySpec`; `MaxAttempts` is a Go `int`. -/
structure RetrySpec where
  maxAttempts : Int
  backoff : String
  maxBackoff : String
  retryOnNetworkError : Option Bool
  retryOnStatus : List Nat
deriving DecidableEq, Repr

/-- `v1alpha1.ActionSpec`. -/
structure ActionSpec where
  type : String
  method : String
  url : String
  headers : List (String × ValueFrom)
  body : Option TemplateSpec
  expectedStatus : String
  mode : String
  schedule : String
  timeout : String
  retry : Option RetrySpec
  tls : Option TLSSpec
deriving DecidableEq, Repr

/-- `v1alpha1.ResourceActionSpec`. -/
structure RASpec where
  selector : ResourceSelector
  events : List String
  filters : Option FilterSpec
  actions : List ActionSpec
deriving DecidableEq, Repr

/-- `v1alpha1.ExecutionRecord`; `executedAt` is a `metav1.Time` modelled as `Nat`. -/
structure ExecutionRecord where
  resourceUID : String
  event : String
  executedAt : Nat
deriving DecidableEq, Repr

/-- `metav1.Condition`; `status` holds the string values "True"/"False",
`lastTransitionTime` is a `metav1.Time` modelled as `Nat` (0 = zero time). -/
structure Condition where
  type : String
  status : String
  reason : String
  message : String
  observedGeneration : Int
  lastTransitionTime : Nat
deriving DecidableEq, Repr

/-- `v1alpha1.ResourceActionStatus`. -/
structure RAStatus where
  executions : List ExecutionRecord
  lastError : String
  conditions : List Condition
deriving DecidableEq, Repr

/-- `v1alpha1.ResourceAction`: the object metadata fields the engine reads
(`Name`, `Namespace`, `Generation`) plus spec and status. -/
structure ResourceAction where
  name : String
  nspace : String
  generation : Int
  spec : RASpec
  status : RAStatus
deriving DecidableEq, Repr

/-- Go map indexing with the string zero value: `m[k]` returns `""` when
`k` is absent (also when the map is nil). -/
def lookupD (m : List (String × String)) (k : String) : String :=
  match m.find? (fun p => p.1 == k) with
  | some p => p.2
  | none => ""

/-- ASCII lower-casing of one character code. -/
def lowerNat (c : Char) : Nat :=
  if 65 ≤ c.toNat ∧ c.toNat ≤ 90 then c.toNat + 32 else c.toNat

/-- `strings.EqualFold`, restricted to the ASCII case folding that the
event names use. -/
def eqFold (a b : String) : Bool :=
  a.data.map lowerNat == b.data.map lowerNat

/-- `engine.matchesSelector`. -/
def matchesSelector (sel : ResourceSelector) (gvk : GVK) : Bool :=
  sel.group == gvk.group && sel.version == gvk.version && sel.kind == gvk.kind

/-- `engine.containsEvent`. -/
def containsEvent (events : List String) (ev : String) : Bool :=
  events.any (fun e => eqFold e ev)

/-- `engine.matchesFilters`.  The regexp engine (`regexp.Compile`) is a
parameter: `compile pat` is `none` when compilation fails and otherwise
the `MatchString` predicate of the compiled pattern. -/
def matchesFilters (compile : String → Option (String → Bool))
    (filter : Option FilterSpec) (obj : ObjectSnapshot) : Bool :=
  match filter with
  | none => true
  | some f =>
    if f.nameRegex != "" &&
        (match compile f.nameRegex with
         | none => true
         | some re => !(re obj.name)) then
      false
    else if f.namespaceRegex != "" &&
        (match compile f.namespaceRegex with
         | none => true
         | some re => !(re obj.nspace)) then
      false
    else if decide (f.labels.length > 0) &&
        !(f.labels.all (fun kv => lookupD obj.labels kv.1 == kv.2)) then
      false
    else
      true

/-- `engine.alreadyExecuted`. -/
def alreadyExecuted (ra : ResourceAction) (uid : String) (event : String) : Bool :=
  ra.status.executions.any (fun ex => ex.resourceUID == uid && ex.event == event)

/-- The condition-list update loop inside `engine.setCondition`: replace the
first stored condition of the same type (keeping its transition time when
the status is unchanged, stamping `now` when it changed), or append. -/
def setCondList (conds : List Condition) (cond : Condition) (now : Nat) :
    List Condition :=
  match conds with
  | [] => [cond]
  | c :: rest =>
    if c.type == cond.type then
      (if c.status != cond.status then
        { cond with lastTransitionTime := now }
      else
        { cond with lastTransitionTime := c.lastTransitionTime }) :: rest
    else
      c :: setCondList rest cond now

/-- `engine.setCondition`.  `now` models `metav1.Now()`. -/
def setCondition (ra : ResourceAction) (cond : Condition) (now : Nat) :
    ResourceAction :=
  let c1 := { cond with observedGeneration := ra.generation }
  let c2 := if c1.lastTransitionTime = 0 then { c1 with lastTransitionTime := now } else c1
  { ra with status := { ra.status with conditions := setCondList ra.status.conditions c2 now } }

/-- Environment of the dispatcher (`K8sExecutor`): the regexp engine, the
secret store (`(namespace, name) ↦ data`), the HTTP action executor it
delegates to (`HTTPExecutor.Execute`, verified separately below as
`httpExecute`), and the clock `metav1.Now()`. -/
structure KEnv where
  compileRegex : String → Option (String → Bool)
  getSecret : String → String → Option (List (String × String))
  httpCall : ActionSpec → String → ObjectSnapshot → List (String × String) →
    Except String Unit
  now : Nat

/-- `K8sExecutor.resolveHeaders`: resolves every header value that carries a
`SecretKeyRef` from the rule's namespace; a failed secret read aborts with
the error.  Header entries without a secret reference are skipped, as in
the source. -/
def resolveHeaders (getSecret : String → String → Option (List (String × String)))
    (headers : List (String × ValueFrom)) (ns : String) :
    Except String (List (String × String)) :=
  match headers with
  | [] => .ok []
  | (k, v) :: rest =>
    match v.secretKeyRef with
    | none => resolveHeaders getSecret rest ns
    | some ref =>
      match getSecret ns ref.name with
      | none => .error ("secret not found: " ++ ref.name)
      | some data =>
        match resolveHeaders getSecret rest ns with
        | .error e => .error e
        | .ok restRes => .ok ((k, lookupD data ref.key) :: restRes)

/-- The per-rule action loop of `K8sExecutor.Execute`: actions with
`Mode == "cron"` or a type other than `"http"` are skipped; header
resolution failure or an action failure sets `execErr` and breaks.
Returns the error (if any) and the trace of issued HTTP-executor
invocations `(rule name, action index)`. -/
def runActions (env : KEnv) (input : MatchInput) (ra : ResourceAction) :
    List ActionSpec → Nat → Option String × List (String × Nat)
  | [], _ => (none, [])
  | a :: rest, i =>
    if a.mode == "cron" then
      runActions env input ra rest (i + 1)
    else if a.type != "http" then
      runActions env input ra rest (i + 1)
    else
      match resolveHeaders env.getSecret a.headers ra.nspace with
      | .error e => (some e, [])
      | .ok hdrs =>
        match env.httpCall a ra.nspace input.obj hdrs with
        | .error e => (some e, [(ra.name, i)])
        | .ok _ =>
          let r := runActions env input ra rest (i + 1)
          (r.1, (ra.name, i) :: r.2)

/-- `client.Get` on the rule store: the first rule with the given name and
namespace. -/
def findRA (store : List ResourceAction) (name ns : String) :
    Option ResourceAction :=
  store.find? (fun r => r.name == name && r.nspace == ns)

/-- `Status().Update`: replace the stored rule with the same name and
namespace. -/
def updateRA (store : List ResourceAction) (ra : ResourceAction) :
    List ResourceAction :=
  match store with
  | [] => []
  | r :: rest =>
    if r.name == ra.name && r.nspace == ra.nspace then ra :: rest
    else r :: updateRA rest ra

/-- The body of the conflict-safe status update in `K8sExecutor.Execute`:
append the execution record and set `LastError` and the `Ready` condition
according to `execErr`. -/
def applyStatus (latest : ResourceAction) (record : ExecutionRecord)
    (execErr : Option String) (now : Nat) : ResourceAction :=
  let appended :=
    { latest with status :=
      { latest.status with executions := latest.status.executions ++ [record] } }
  match execErr with
  | some msg =>
    setCondition
      { appended with status := { appended.status with lastError := msg } }
      ⟨"Ready", "False", "ActionFailed", msg, 0, 0⟩ now
  | none =>
    setCondition
      { appended with status := { appended.status with lastError := "" } }
      ⟨"Ready", "True", "ActionSucceeded", "All actions executed successfully", 0, 0⟩ now

/-- The rule loop of `K8sExecutor.Execute`.  The first list argument is the
snapshot taken by the initial `List` call; `store` is the live store that
status updates are applied to (the optimistic-concurrency retry is modelled
as a single read-modify-write, there being no concurrent writer in the
sequential model).  Returns the result of `Execute`, the final store, and
the trace of HTTP-executor invocations. -/
def k8sExecGo (env : KEnv) (input : MatchInput) :
    List ResourceAction → List ResourceAction → List (String × Nat) →
    Except String Unit × List ResourceAction × List (String × Nat)
  | [], store, calls => (.ok (), store, calls)
  | ra :: rest, store, calls =>
    if !matchesSelector ra.spec.selector input.gvk then
      k8sExecGo env input rest store calls
    else if !containsEvent ra.spec.events (eventString input.event) then
      k8sExecGo env input rest store calls
    else if !matchesFilters env.compileRegex ra.spec.filters input.obj then
      k8sExecGo env input rest store calls
    else if alreadyExecuted ra input.obj.uid (eventString input.event) then
      k8sExecGo env input rest store calls
    else
      let r := runActions env input ra ra.spec.actions 0
      match findRA store ra.name ra.nspace with
      | none => (.error "resourceaction not found", store, calls ++ r.2)
      | some latest =>
        let latest2 := applyStatus latest
          ⟨input.obj.uid, eventString input.event, env.now⟩ r.1 env.now
        let store2 := updateRA store latest2
        match r.1 with
        | some e => (.error e, store2, calls ++ r.2)
        | none => k8sExecGo env input rest store2 (calls ++ r.2)

/-- `K8sExecutor.Execute`: dispatch one lifecycle event against every rule
of the store. -/
def k8sExecute (env : KEnv) (store : List ResourceAction) (input : MatchInput) :
    Except String Unit × List ResourceAction × List (String × Nat) :=
  k8sExecGo env input store store []

/-- `engine.cronKey`. -/
structure CronKey where
  resourceAction : String
  resourceUID : String
  actionIndex : Nat
  event : EventType
deriving DecidableEq, Repr

/-- A background task started by `EnsureForMatch` (`go c.runCron(...)`),
recording the captured arguments. -/
structure StartedTask where
  key : CronKey
  ra : ResourceAction
  action : ActionSpec
  input : MatchInput
deriving DecidableEq, Repr

/-- Lookup in the `CronEngine.jobs` registry (key ↦ cancellation-handle id). -/
def lookupJob (jobs : List (CronKey × Nat)) (k : CronKey) : Option Nat :=
  match jobs.find? (fun p => decide (p.1 = k)) with
  | some p => some p.2
  | none => none

/-- The per-rule action loop of `CronEngine.EnsureForMatch`: actions whose
`Mode` is not the literal `"schedule"` or whose `Schedule` is empty are
skipped; an absent key is armed (handle id `nid` stored, task started),
a present key is left untouched. -/
def armActions (input : MatchInput) (ra : ResourceAction) :
    List ActionSpec → Nat → List (CronKey × Nat) → Nat →
    List (CronKey × Nat) × Nat × List StartedTask
  | [], _, jobs, nid => (jobs, nid, [])
  | a :: rest, i, jobs, nid =>
    if a.mode != "schedule" then
      armActions input ra rest (i + 1) jobs nid
    else if a.schedule == "" then
      armActions input ra rest (i + 1) jobs nid
    else
      let key : CronKey := ⟨ra.name, input.obj.uid, i, input.event⟩
      match lookupJob jobs key with
      | some _ => armActions input ra rest (i + 1) jobs nid
      | none =>
        let r := armActions input ra rest (i + 1) (jobs ++ [(key, nid)]) (nid + 1)
        (r.1, r.2.1, ⟨key, ra, a, input⟩ :: r.2.2)

/-- `CronEngine.EnsureForMatch`: for every rule whose selector and event set
match the input (filters are not consulted in the source), arm the
qualifying actions.  Returns the updated registry, the next fresh handle
id, and the started tasks. -/
def ensureForMatch (input : MatchInput) :
    List ResourceAction → List (CronKey × Nat) → Nat →
    List (CronKey × Nat) × Nat × List StartedTask
  | [], jobs, nid => (jobs, nid, [])
  | ra :: rest, jobs, nid =>
    if !matchesSelector ra.spec.selector input.gvk then
      ensureForMatch input rest jobs nid
    else if !containsEvent ra.spec.events (eventString input.event) then
      ensureForMatch input rest jobs nid
    else
      let r := armActions input ra ra.spec.actions 0 jobs nid
      let r2 := ensureForMatch input rest r.1 r.2.1
      (r2.1, r2.2.1, r.2.2 ++ r2.2.2)

/-- Outcome of one `ticker.C` iteration of `CronEngine.runCron`. -/
inductive TickResult where
  | stopped (store : List ResourceAction)
  | executed (store : List ResourceAction) (calls : List (String × Nat))
deriving DecidableEq, Repr

/-- One tick of the `CronEngine.runCron` loop: unless the originating event
was a deletion, the owning rule is re-read and the task returns when it is
gone (the registry is not touched anywhere in `runCron`); otherwise the
engine's executor (`K8sExecutor.Execute`) is invoked with the captured
`MatchInput` and its error is discarded. -/
def runCronTick (env : KEnv) (ra : ResourceAction) (input : MatchInput)
    (store : List ResourceAction) (jobs : List (CronKey × Nat)) :
    TickResult × List (CronKey × Nat) :=
  if input.event ≠ EventType.delete ∧ findRA store ra.name ra.nspace = none then
    (.stopped store, jobs)
  else
    let r := k8sExecute env store input
    (.executed r.2.1 r.2.2, jobs)

/-- The effective retry policy derived at the top of `HTTPExecutor.Execute`
(durations in nanoseconds). -/
structure RetryPolicy where
  maxAttempts : Nat
  backoffBase : Nat
  maxBackoff : Nat
  retryOnNetwork : Bool
  retryOnStatus : List Nat
deriving DecidableEq, Repr

/-- `engine.parseDurationDefault`; `parse` models `time.ParseDuration`
(result in nanoseconds, `none` on a parse error). -/
def parseDurationDefault (parse : String → Option Nat) (s : String)
    (dflt : Nat) : Nat :=
  if s == "" then dflt
  else
    match parse s with
    | none => dflt
    | some d => d

/-- The retry-policy derivation in `HTTPExecutor.Execute`: defaults
`maxAttempts=1`, `backoff=500ms`, `maxBackoff=10s`, retry on network
errors, retry statuses 429/500/502/503/504, each overridden by the
corresponding `action.Retry` field when present. -/
def deriveRetry (parse : String → Option Nat) (r : Option RetrySpec) :
    RetryPolicy :=
  let p : RetryPolicy := ⟨1, 500000000, 10000000000, true, [429, 500, 502, 503, 504]⟩
  match r with
  | none => p
  | some r =>
    { maxAttempts := if r.maxAttempts > 0 then r.maxAttempts.toNat else p.maxAttempts
      backoffBase := parseDurationDefault parse r.backoff p.backoffBase
      maxBackoff := parseDurationDefault parse r.maxBackoff p.maxBackoff
      retryOnNetwork :=
        match r.retryOnNetworkError with
        | none => p.retryOnNetwork
        | some b => b
      retryOnStatus :=
        if decide (r.retryOnStatus.length > 0) then r.retryOnStatus
        else p.retryOnStatus }

/-- Two's-complement re-interpretation of an integer as a 64-bit value:
the wrap-around of Go's `int`/`int64` arithmetic (the numerals are
`2^64` and `2^63`). -/
def wrap64 (n : Int) : Int :=
  let m := n % 18446744073709551616
  if m < 9223372036854775808 then m else m - 18446744073709551616

/-- `engine.backoffSleep` with Go's 64-bit integer semantics:
`mult := 1 << (attempt-1)` and `int64(base) * int64(mult)` wrap at 64
bits, so for large attempts the product wraps to a non-positive value,
the `sleep > max` cap and the `jitterMax > 0` guard do not fire, and
the negative result is returned (`time.Sleep` of a negative duration
sleeps zero).  `draw` is the raw random value behind
`rng.Int63n(jitterMax)`, reduced into `[0, jitterMax)`; the jittered
sum wraps as well.  The division and remainder here agree with Go's
truncating operators on every reachable operand pair: when the jitter
branch is taken `capped` is positive, and the guard's sign test agrees
for every rounding convention. -/
def backoffSleep (base maxB : Int) (attempt draw : Nat) : Int :=
  let mult := wrap64 ((2 ^ (attempt - 1) : Nat) : Int)
  let sleep := wrap64 (base * mult)
  let capped := if sleep > maxB then maxB else sleep
  let jitterMax := capped / 4
  if jitterMax > 0 then wrap64 (capped + (draw : Int) % jitterMax) else capped

/-- Outcome of one `httpClient.Do` call: transport error or response. -/
inductive DoResult where
  | netErr (msg : String)
  | resp (status : Nat) (body : String)
deriving DecidableEq, Repr

/-- One HTTP request as built inside the retry loop. -/
structure HttpReq where
  method : String
  url : String
  body : String
deriving DecidableEq, Repr

/-- Environment of the HTTP executor: `time.ParseDuration`, the transport
construction (`buildTransport`, which reads TLS secret material through
the Kubernetes client), the templating engine (`template.Parse` +
`Execute` collapsed into one fallible call), `regexp.Compile`,
`http.NewRequestWithContext` failures, the network (`httpClient.Do`,
indexed by attempt number), the transient-error classifier
`isRetryableNetErr`, and the random source. -/
structure HttpEnv where
  parseDuration : String → Option Nat
  buildTransport : Option TLSSpec → Except String Unit
  render : String → List (String × String) → Except String String
  compileRegex : String → Option (String → Bool)
  reqErr : String → String → Option String
  httpDo : Nat → DoResult
  netRetryable : String → Bool
  draw : Nat → Nat

/-- The body rendering step of `HTTPExecutor.Execute`: when a body template
is configured, render it against `obj.Object` (the full raw snapshot);
otherwise the body is empty. -/
def renderBody (env : HttpEnv) (action : ActionSpec) (obj : ObjectSnapshot) :
    Except String String :=
  match action.body with
  | none => .ok ""
  | some b =>
    if b.template == "" then .ok ""
    else env.render b.template obj.raw

/-- The retry loop of `HTTPExecutor.Execute`, starting at the given attempt
number with `fuel` remaining iterations (`maxAttempts` initially).  Returns
the result, the requests sent, and the backoff sleeps as pairs
`(n, d)`: after attempt `n` the loop slept the `int64` duration `d`
(possibly negative under wrap-around, in which case `time.Sleep` sleeps
zero) before attempt `n+1`. -/
def execLoop (env : HttpEnv) (re : String → Bool) (pol : RetryPolicy)
    (method url body : String) :
    Nat → Nat → Except String Unit × List HttpReq × List (Nat × Int)
  | _, 0 =>
    (.error ("http call failed after " ++ toString pol.maxAttempts ++ " attempts"),
     [], [])
  | attempt, fuel + 1 =>
    match env.reqErr method url with
    | some e => (.error e, [], [])
    | none =>
      let req : HttpReq := ⟨method, url, body⟩
      match env.httpDo attempt with
      | .netErr msg =>
        if pol.retryOnNetwork && decide (attempt < pol.maxAttempts)
            && env.netRetryable msg then
          let d := backoffSleep (pol.backoffBase : Int) (pol.maxBackoff : Int)
            attempt (env.draw attempt)
          let r := execLoop env re pol method url body (attempt + 1) fuel
          (r.1, req :: r.2.1, (attempt, d) :: r.2.2)
        else
          (.error msg, [req], [])
      | .resp status rbody =>
        if re (toString status) then (.ok (), [req], [])
        else if pol.retryOnStatus.contains status
            && decide (attempt < pol.maxAttempts) then
          let d := backoffSleep (pol.backoffBase : Int) (pol.maxBackoff : Int)
            attempt (env.draw attempt)
          let r := execLoop env re pol method url body (attempt + 1) fuel
          (r.1, req :: r.2.1, (attempt, d) :: r.2.2)
        else
          (.error ("http call failed: status=" ++ toString status ++ " body=" ++ rbody),
           [req], [])

/-- `HTTPExecutor.Execute`: derive policy and timeout, build the transport,
render the body once, default the method and the expected-status pattern,
compile the pattern, then run the retry loop starting at attempt 1. -/
def httpExecute (env : HttpEnv) (action : ActionSpec) (_raNamespace : String)
    (obj : ObjectSnapshot) (_headers : List (String × String)) :
    Except String Unit × List HttpReq × List (Nat × Int) :=
  let _timeout := parseDurationDefault env.parseDuration action.timeout 10000000000
  let pol := deriveRetry env.parseDuration action.retry
  match env.buildTransport action.tls with
  | .error e => (.error e, [], [])
  | .ok _ =>
    match renderBody env action obj with
    | .error e => (.error e, [], [])
    | .ok bodyBytes =>
      let method := if action.method == "" then "POST" else action.method
      let pattern := if action.expectedStatus == "" then "^2..$" else action.expectedStatus
      match env.compileRegex pattern with
      | none => (.error "invalid expectedStatus regex", [], [])
      | some re =>
        execLoop env re pol method action.url bodyBytes 1 pol.maxAttempts

/-- Modelled from the spec: the fixed body-rendering context
`(name, namespace, uid, labels)` of the object snapshot that §4.4 claims
the body template is rendered against (compare `renderBody`, which
passes the full raw snapshot). -/
def specBodyContext (obj : ObjectSnapshot) : List (String × String) :=
  ("name", obj.name) :: ("namespace", obj.nspace) :: ("uid", obj.uid) :: obj.labels

/-- Modelled from the spec: a single optional-regex test — an empty pattern
always accepts, a malformed pattern never accepts (fails closed). -/
def regexAccepts (compile : String → Option (String → Bool))
    (pat s : String) : Bool :=
  if pat == "" then true
  else
    match compile pat with
    | none => false
    | some re => re s

/-- Modelled from the spec: the conjunctive filter predicate of §4.2 — name
regex AND namespace regex AND all label equalities; an absent filter
matches everything. -/
def filterSpecPred (compile : String → Option (String → Bool))
    (filter : Option FilterSpec) (obj : ObjectSnapshot) : Bool :=
  match filter with
  | none => true
  | some f =>
    regexAccepts compile f.nameRegex obj.name &&
    regexAccepts compile f.namespaceRegex obj.nspace &&
    f.labels.all (fun kv => lookupD obj.labels kv.1 == kv.2)

/-! Concrete inputs used by the evaluation theorems, counterexamples and
witnesses below. -/

/-- A core/v1 Namespace group-version-kind. -/
def gvkNamespace : GVK := ⟨"", "v1", "Namespace"⟩

/-- A concrete object snapshot; `raw` carries an attribute (`kind`) that is
outside the `(name, namespace, uid, labels)` projection. -/
def objA : ObjectSnapshot := ⟨"obj-a", "ns", "uid-1", [], [("kind", "Pod")]⟩

/-- A Create event for `objA`. -/
def inputCreate : MatchInput := ⟨.create, gvkNamespace, objA⟩

/-- A periodic http action in the CRD's documented periodic mode `"cron"`
with a non-empty schedule. -/
def cronAction : ActionSpec :=
  ⟨"http", "", "http://example/hook", [], none, "", "cron", "30s", "", none, none⟩

/-- The same action with the literal mode string `"schedule"` that
`EnsureForMatch` actually tests for. -/
def schedAction : ActionSpec := { cronAction with mode := "schedule" }

/-- A plain immediate http action in the default mode `"once"`. -/
def onceAction : ActionSpec :=
  ⟨"http", "", "http://example/hook", [], none, "", "once", "", "", none, none⟩

/-- A rule selecting Namespace/Create with a single `"cron"`-mode action. -/
def ruleCron : ResourceAction :=
  ⟨"ra-cron", "ns", 1, ⟨⟨"", "v1", "Namespace"⟩, ["Create"], none, [cronAction]⟩,
   ⟨[], "", []⟩⟩

/-- A rule selecting Namespace/Create with a single `"schedule"`-mode action. -/
def ruleSched : ResourceAction :=
  ⟨"ra-sched", "ns", 1, ⟨⟨"", "v1", "Namespace"⟩, ["Create"], none, [schedAction]⟩,
   ⟨[], "", []⟩⟩

/-- Two once-mode rules matching the same events; used for the
multi-rule dispatch scenarios. -/
def ruleA : ResourceAction :=
  ⟨"ra-a", "ns", 1, ⟨⟨"", "v1", "Namespace"⟩, ["Create"], none, [onceAction]⟩,
   ⟨[], "", []⟩⟩

/-- Second once-mode rule, identical to `ruleA` except for its name. -/
def ruleB : ResourceAction :=
  ⟨"ra-b", "ns", 1, ⟨⟨"", "v1", "Namespace"⟩, ["Create"], none, [onceAction]⟩,
   ⟨[], "", []⟩⟩

/-- A dispatcher environment whose HTTP executor always succeeds. -/
def kenv0 : KEnv := ⟨fun _ => none, fun _ _ => none, fun _ _ _ _ => .ok (), 99⟩

/-- A dispatcher environment whose HTTP executor always fails. -/
def kenvFail : KEnv := ⟨fun _ => none, fun _ _ => none, fun _ _ _ _ => .error "boom", 99⟩

/-- The state of `ruleSched` after one cron tick re-dispatched the captured
Create event through the full executor: an execution record was appended
and the Ready condition was set. -/
def ruleSchedTicked : ResourceAction :=
  { ruleSched with status :=
    ⟨[⟨"uid-1", "Create", 99⟩], "",
     [⟨"Ready", "True", "ActionSucceeded", "All actions executed successfully", 1, 99⟩]⟩ }

/-- The registry key `EnsureForMatch` would use for `ruleSched`'s action 0
on a Create event of `objA`. -/
def keySched : CronKey := ⟨"ra-sched", "uid-1", 0, .create⟩

/-- `ruleA` with an execution record for `(uid-1, Create)` already in its
ledger. -/
def ruleDone : ResourceAction :=
  { ruleA with status := ⟨[⟨"uid-1", "Create", 5⟩], "", []⟩ }

/-- The state of `ruleA` after a dispatch whose action failed with "boom":
record appended, `Ready=False`. -/
def ruleAFailed : ResourceAction :=
  { ruleA with status :=
    ⟨[⟨"uid-1", "Create", 99⟩], "boom",
     [⟨"Ready", "False", "ActionFailed", "boom", 1, 99⟩]⟩ }

/-- An HTTP-executor environment: all parses fail (so the defaults apply),
the transport builds, the default `^2..$` pattern compiles to a matcher
of three-digit strings starting with `2`, the first attempt receives a
503 and every later one a 200, and the random source always draws 0. -/
def henv0 : HttpEnv :=
  ⟨fun _ => none, fun _ => .ok (), fun _ _ => .ok "",
   fun p => if p == "^2..$" then some (fun s => s == "200") else none,
   fun _ _ => none,
   fun n => if n == 1 then .resp 503 "" else .resp 200 "",
   fun _ => false, fun _ => 0⟩

/-- An action with `retry.maxAttempts = 2` and the remaining retry fields
defaulted. -/
def action503 : ActionSpec :=
  ⟨"http", "", "http://example/hook", [], none, "", "once", "", "",
   some ⟨2, "", "", none, []⟩, none⟩

/-- Like `henv0`, but the templating engine renders the `kind` attribute of
its context (failing when the context has none) and every attempt
receives a 200. -/
def henvK : HttpEnv :=
  { henv0 with
    render := fun _ ctx =>
      match ctx.find? (fun p => p.1 == "kind") with
      | some p => .ok p.2
      | none => .error "no kind",
    httpDo := fun _ => .resp 200 "" }

/-- Like `henv0`, but the templating engine always fails. -/
def henvRF : HttpEnv :=
  { henv0 with render := fun _ _ => .error "tpl boom" }

/-- An action with a body template. -/
def actionBody : ActionSpec :=
  ⟨"http", "", "http://example/hook", [], some ⟨"tpl"⟩, "", "once", "", "", none, none⟩

/-! Helper lemmas. -/

/-- A rule whose execution ledger already holds a record for the event's
`(uid, event)` pair is skipped entirely by the dispatch loop: no action
run, no record appended, remaining rules processed unchanged. -/
theorem k8sExecGo_skip_of_alreadyExecuted (env : KEnv) (input : MatchInput)
    (ra : ResourceAction) (rest store : List ResourceAction)
    (calls : List (String × Nat))
    (h : alreadyExecuted ra input.obj.uid (eventString input.event) = true) :
    k8sExecGo env input (ra :: rest) store calls =
      k8sExecGo env input rest store calls := by
  simp [k8sExecGo, h]

set_option maxRecDepth 4000 in
/-- Every sleep recorded by the retry loop carries the attempt number it
followed (at least the starting attempt) and is exactly `backoffSleep`
at that attempt. -/
theorem execLoop_sleeps (env : HttpEnv) (re : String → Bool) (pol : RetryPolicy)
    (method url body : String) :
    ∀ fuel attempt nd, nd ∈ (execLoop env re pol method url body attempt fuel).2.2 →
      attempt ≤ nd.1 ∧
      nd.2 = backoffSleep (pol.backoffBase : Int) (pol.maxBackoff : Int)
        nd.1 (env.draw nd.1) := by
  intro fuel
  induction fuel with
  | zero => intro attempt nd h; simp [execLoop] at h
  | succ fuel ih =>
    intro attempt nd h
    simp only [execLoop] at h
    split at h
    · simp at h
    · split at h
      · split at h
        · simp only [List.mem_cons] at h
          rcases h with h | h
          · subst h; exact ⟨Nat.le_refl _, by simp⟩
          · have := ih (attempt + 1) nd h
            exact ⟨Nat.le_of_succ_le this.1, this.2⟩
        · simp at h
      · split at h
        · simp at h
        · split at h
          · simp only [List.mem_cons] at h
            rcases h with h | h
            · subst h; exact ⟨Nat.le_refl _, by simp⟩
            · have := ih (attempt + 1) nd h
              exact ⟨Nat.le_of_succ_le this.1, this.2⟩
          · simp at h

/-- A nonnegative integer below `2^63` is its own 64-bit interpretation. -/
theorem wrap64_of_lt (n : Int) (h0 : 0 ≤ n) (h : n < 9223372036854775808) :
    wrap64 n = n := by
  simp only [wrap64]
  have hm : n % (18446744073709551616 : Int) = n := by omega
  rw [hm, if_pos (by omega)]

/-- As long as the exponential product fits in `int64` and the jittered sum
does too (`5·s < 2^65` for the capped delay `s`), no wrap-around occurs
and `backoffSleep` stays in `[s, s·5/4)`, provided `s` is positive. -/
theorem backoffSleep_bounds (base maxB attempt draw : Nat)
    (hfit : base * 2 ^ (attempt - 1) < 2 ^ 63)
    (hsum : 5 * Nat.min (base * 2 ^ (attempt - 1)) maxB < 2 ^ 65)
    (hpos : 0 < Nat.min (base * 2 ^ (attempt - 1)) maxB) :
    ((Nat.min (base * 2 ^ (attempt - 1)) maxB : Nat) : Int) ≤
      backoffSleep (base : Int) (maxB : Int) attempt draw ∧
    4 * backoffSleep (base : Int) (maxB : Int) attempt draw <
      5 * ((Nat.min (base * 2 ^ (attempt - 1)) maxB : Nat) : Int) := by
  have h63 : (2 : Nat) ^ 63 = 9223372036854775808 := by norm_num
  have h65 : (2 : Nat) ^ 65 = 36893488147419103232 := by norm_num
  rw [h63] at hfit
  rw [h65] at hsum
  have hb : 0 < base := by
    rcases Nat.eq_zero_or_pos base with hb | hb
    · subst hb; simp at hpos
    · exact hb
  have hexp : (2 : Nat) ^ (attempt - 1) ≤ base * 2 ^ (attempt - 1) :=
    Nat.le_mul_of_pos_left _ hb
  have hmult : wrap64 ((2 ^ (attempt - 1) : Nat) : Int) =
      ((2 ^ (attempt - 1) : Nat) : Int) :=
    wrap64_of_lt _ (Int.natCast_nonneg _)
      (by exact_mod_cast lt_of_le_of_lt hexp hfit)
  have hprodeq : (base : Int) * ((2 ^ (attempt - 1) : Nat) : Int) =
      ((base * 2 ^ (attempt - 1) : Nat) : Int) := by push_cast; ring
  have hprod : wrap64 ((base : Int) * ((2 ^ (attempt - 1) : Nat) : Int)) =
      ((base * 2 ^ (attempt - 1) : Nat) : Int) := by
    rw [hprodeq]
    exact wrap64_of_lt _ (Int.natCast_nonneg _) (by exact_mod_cast hfit)
  simp only [backoffSleep, hmult, hprod]
  have hcap : (if ((base * 2 ^ (attempt - 1) : Nat) : Int) > (maxB : Int) then
      (maxB : Int) else ((base * 2 ^ (attempt - 1) : Nat) : Int)) =
      ((Nat.min (base * 2 ^ (attempt - 1)) maxB : Nat) : Int) := by
    split
    · rename_i hgt
      have hle : maxB ≤ base * 2 ^ (attempt - 1) := by exact_mod_cast le_of_lt hgt
      have hmin : Nat.min (base * 2 ^ (attempt - 1)) maxB = maxB := by
        simp only [Nat.min_def]
        split
        · rename_i hle2
          exact Nat.le_antisymm hle2 hle
        · rfl
      rw [hmin]
    · rename_i hng
      have hle : base * 2 ^ (attempt - 1) ≤ maxB := by
        exact_mod_cast not_lt.mp hng
      have hmin : Nat.min (base * 2 ^ (attempt - 1)) maxB = base * 2 ^ (attempt - 1) := by
        simp only [Nat.min_def]
        split
        · rfl
        · rename_i hgt2
          exact absurd hle hgt2
      rw [hmin]
  rw [hcap]
  set s : Nat := Nat.min (base * 2 ^ (attempt - 1)) maxB with hs
  have hsfit : s < 9223372036854775808 := by omega
  have hdm : s / 4 * 4 ≤ s := Nat.div_mul_le_self s 4
  have hscast : ((s : Int)) / 4 = ((s / 4 : Nat) : Int) := by omega
  rw [hscast]
  by_cases hq : 0 < s / 4
  · rw [if_pos (by exact_mod_cast hq)]
    have hmodlt : draw % (s / 4) < s / 4 := Nat.mod_lt _ hq
    have hmod : (draw : Int) % ((s / 4 : Nat) : Int) =
        ((draw % (s / 4) : Nat) : Int) := by push_cast; rfl
    rw [hmod]
    have hsum2 : ((s : Int) + ((draw % (s / 4) : Nat) : Int)) =
        ((s + draw % (s / 4) : Nat) : Int) := by push_cast; ring
    rw [hsum2]
    have hlt : s + draw % (s / 4) < 9223372036854775808 := by omega
    rw [wrap64_of_lt _ (Int.natCast_nonneg _) (by exact_mod_cast hlt)]
    constructor
    · exact_mod_cast Nat.le_add_right s _
    · have h4 : 4 * (s + draw % (s / 4)) < 5 * s := by omega
      exact_mod_cast h4
  · rw [if_neg (by exact_mod_cast hq)]
    constructor
    · exact le_refl _
    · have h4 : 4 * s < 5 * s := by omega
      exact_mod_cast h4

/-- At the default base (500 ms) and an uncapped-by-min product, the Go
arithmetic wraps: the delay computed for retried attempt 36 is negative
(`time.Sleep` would sleep zero), so no lower bound like the capped
exponential can hold there. -/
theorem backoffSleep_wraps_negative :
    backoffSleep 500000000 10000000000 36 0 < 0 := by decide

/-- Every request sent by the retry loop carries the same (pre-rendered)
body. -/
theorem execLoop_body (env : HttpEnv) (re : String → Bool) (pol : RetryPolicy)
    (method url body : String) :
    ∀ fuel attempt r, r ∈ (execLoop env re pol method url body attempt fuel).2.1 →
      r.body = body := by
  intro fuel
  induction fuel with
  | zero => intro attempt r h; simp [execLoop] at h
  | succ fuel ih =>
    intro attempt r h
    simp only [execLoop] at h
    split at h
    · simp at h
    · split at h
      · split at h
        · simp only [List.mem_cons] at h
          rcases h with h | h
          · subst h; rfl
          · exact ih (attempt + 1) r h
        · simp at h; subst h; rfl
      · split at h
        · simp at h; subst h; rfl
        · split at h
          · simp only [List.mem_cons] at h
            rcases h with h | h
            · subst h; rfl
            · exact ih (attempt + 1) r h
          · simp at h; subst h; rfl

/-- When a stored condition of the new condition's type exists, the update
loop replaces it, stamping `now` exactly when the stored status differs
from the new one. -/
theorem setCondList_find_some (cond : Condition) (now : Nat) :
    ∀ (conds : List Condition) (stored : Condition),
      conds.find? (fun c => c.type == cond.type) = some stored →
      (setCondList conds cond now).find? (fun c => c.type == cond.type) =
        some (if stored.status = cond.status then
                { cond with lastTransitionTime := stored.lastTransitionTime }
              else
                { cond with lastTransitionTime := now }) := by
  intro conds
  induction conds with
  | nil => intro stored h; simp at h
  | cons c rest ih =>
    intro stored h
    by_cases ht : c.type = cond.type
    · rw [List.find?_cons_of_pos _ (by simp [ht])] at h
      injection h with h
      subst h
      have hhead : setCondList (c :: rest) cond now =
          (if c.status != cond.status then { cond with lastTransitionTime := now }
           else { cond with lastTransitionTime := c.lastTransitionTime }) :: rest := by
        simp [setCondList, ht]
      rw [hhead, List.find?_cons_of_pos _ (by split <;> simp)]
      by_cases hs : c.status = cond.status
      · simp [hs]
      · simp [bne_iff_ne, hs]
    · have hset : setCondList (c :: rest) cond now = c :: setCondList rest cond now := by
        simp [setCondList, ht]
      rw [List.find?_cons_of_neg _ (by simp [ht])] at h
      rw [hset, List.find?_cons_of_neg _ (by simp [ht])]
      exact ih stored h

/-- When no stored condition has the new condition's type, the update loop
appends the new condition. -/
theorem setCondList_find_none (cond : Condition) (now : Nat) :
    ∀ conds : List Condition,
      conds.find? (fun c => c.type == cond.type) = none →
      setCondList conds cond now = conds ++ [cond] := by
  intro conds
  induction conds with
  | nil => intro _; rfl
  | cons c rest ih =>
    intro h
    rw [List.find?_cons] at h
    split at h
    · exact absurd h (by simp)
    · rename_i hp
      simp only [setCondList]
      rw [if_neg (by simpa using hp)]
      rw [ih h]
      rfl

/-- When no stored condition has the new condition's type, lookup after the
update finds exactly the new condition. -/
theorem setCondList_find_none_self (conds : List Condition) (cond : Condition)
    (now : Nat)
    (hf : conds.find? (fun c => c.type == cond.type) = none) :
    (setCondList conds cond now).find? (fun c => c.type == cond.type) = some cond := by
  rw [setCondList_find_none cond now conds hf, List.find?_append, hf]
  simp

/-- The update loop always leaves a condition of the written type in the
list, carrying the written status, reason and message. -/
theorem setCondList_find_self (conds : List Condition) (cond : Condition)
    (now : Nat) :
    ∃ c', (setCondList conds cond now).find? (fun c => c.type == cond.type) = some c' ∧
      c'.status = cond.status ∧ c'.reason = cond.reason ∧
      c'.message = cond.message := by
  cases hf : conds.find? (fun c => c.type == cond.type) with
  | some stored =>
    refine ⟨_, setCondList_find_some cond now conds stored hf, ?_⟩
    split <;> simp
  | none =>
    rw [setCondList_find_none cond now conds hf, List.find?_append, hf]
    exact ⟨cond, by simp, rfl, rfl, rfl⟩

/-- After `setCondition`, a condition of the written type is stored, with
the status, reason and message of the written condition. -/
theorem setCondition_find (ra : ResourceAction) (cond : Condition) (now : Nat) :
    ∃ c', (setCondition ra cond now).status.conditions.find?
            (fun c => c.type == cond.type) = some c' ∧
      c'.status = cond.status ∧ c'.reason = cond.reason ∧
      c'.message = cond.message := by
  simp only [setCondition]
  split
  · exact setCondList_find_self ra.status.conditions
      ⟨cond.type, cond.status, cond.reason, cond.message, ra.generation, now⟩ now
  · exact setCondList_find_self ra.status.conditions
      ⟨cond.type, cond.status, cond.reason, cond.message, ra.generation,
       cond.lastTransitionTime⟩ now

/-- Lookup distributes over registry append: a binding found in the prefix
survives. -/
theorem lookupJob_append_of_some (jobs ext : List (CronKey × Nat))
    (k : CronKey) (h : (lookupJob jobs k).isSome) :
    lookupJob (jobs ++ ext) k = lookupJob jobs k := by
  simp only [lookupJob] at *
  rw [List.find?_append]
  cases hf : jobs.find? (fun p => decide (p.1 = k)) with
  | some p => simp
  | none => rw [hf] at h; simp at h

/-- The per-rule arming loop never disturbs an existing registry binding and
never starts a task under a key that is already registered. -/
theorem armActions_preserves (input : MatchInput) (ra : ResourceAction) :
    ∀ (acts : List ActionSpec) (i : Nat) (jobs : List (CronKey × Nat)) (nid : Nat)
      (k : CronKey) (h : Nat),
      lookupJob jobs k = some h →
      lookupJob (armActions input ra acts i jobs nid).1 k = some h ∧
      ∀ t ∈ (armActions input ra acts i jobs nid).2.2, t.key ≠ k := by
  intro acts
  induction acts with
  | nil => intro i jobs nid k h hk; exact ⟨hk, by simp [armActions]⟩
  | cons a rest ih =>
    intro i jobs nid k h hk
    simp only [armActions]
    split
    · exact ih (i + 1) jobs nid k h hk
    · split
      · exact ih (i + 1) jobs nid k h hk
      · cases hl : lookupJob jobs ⟨ra.name, input.obj.uid, i, input.event⟩ with
        | some hdl => exact ih (i + 1) jobs nid k h hk
        | none =>
          have hne : (⟨ra.name, input.obj.uid, i, input.event⟩ : CronKey) ≠ k := by
            intro he; rw [he, hk] at hl; exact Option.noConfusion hl
          have hk2 : lookupJob (jobs ++ [(⟨ra.name, input.obj.uid, i, input.event⟩, nid)]) k
              = some h := by
            rw [lookupJob_append_of_some _ _ _ (by rw [hk]; rfl)]
            exact hk
          have hrec := ih (i + 1) (jobs ++ [(⟨ra.name, input.obj.uid, i, input.event⟩, nid)])
            (nid + 1) k h hk2
          refine ⟨hrec.1, ?_⟩
          intro t ht
          simp only [List.mem_cons] at ht
          rcases ht with ht | ht
          · subst ht; exact hne
          · exact hrec.2 t ht

/-- `EnsureForMatch` never disturbs an existing registry binding and never
starts a task under a key that is already registered (idempotent arming). -/
theorem ensureForMatch_preserves (input : MatchInput) :
    ∀ (store : List ResourceAction) (jobs : List (CronKey × Nat)) (nid : Nat)
      (k : CronKey) (h : Nat),
      lookupJob jobs k = some h →
      lookupJob (ensureForMatch input store jobs nid).1 k = some h ∧
      ∀ t ∈ (ensureForMatch input store jobs nid).2.2, t.key ≠ k := by
  intro store
  induction store with
  | nil => intro jobs nid k h hk; exact ⟨hk, by simp [ensureForMatch]⟩
  | cons ra rest ih =>
    intro jobs nid k h hk
    simp only [ensureForMatch]
    split
    · exact ih jobs nid k h hk
    · split
      · exact ih jobs nid k h hk
      · have ha := armActions_preserves input ra ra.spec.actions 0 jobs nid k h hk
        have hr := ih (armActions input ra ra.spec.actions 0 jobs nid).1
          (armActions input ra ra.spec.actions 0 jobs nid).2.1 k h ha.1
        refine ⟨hr.1, ?_⟩
        intro t ht
        simp only [List.mem_append] at ht
        rcases ht with ht | ht
        · exact ha.2 t ht
        · exact hr.2 t ht

/-! Claim theorems. -/

/-- C1: the claim states that for every matching rule with an action in
interval mode and a non-empty schedule, `EnsureForMatch` arms a background
task under the key `(ruleID, objectUID, actionIndex, eventType)`.  The
CRD schema (`Enum=once;cron`) and the README define the periodic mode as
the literal `"cron"`, but `EnsureForMatch` only arms actions whose mode
is the literal `"schedule"`, which the schema does not admit: the
matching rule `ruleCron` (mode `"cron"`, schedule `"30s"`) arms nothing,
while the schema-invalid mode `"schedule"` does arm. -/
theorem ensureForMatch_cron_mode_not_armed :
    matchesSelector ruleCron.spec.selector inputCreate.gvk = true ∧
    containsEvent ruleCron.spec.events (eventString inputCreate.event) = true ∧
    ensureForMatch inputCreate [ruleCron] [] 0 = ([], 0, []) ∧
    ensureForMatch inputCreate [ruleSched] [] 0 =
      ([(keySched, 0)], 1, [⟨keySched, ruleSched, schedAction, inputCreate⟩]) := by
  refine ⟨by decide, by decide, by decide, by decide⟩

/-- C2: the claim states that a tick of an armed interval task invokes the
executor with the captured event, ignores its error, and never appends
execution records or updates the Ready condition.  The tick does invoke
the executor on the captured `MatchInput` and discards the error, but
that executor is the full dispatcher: on this tick it appends an
execution record to the matching rule `ruleSched` and sets its Ready
condition (it even runs the rule's immediate-path action, call
`("ra-sched", 0)`), because the rule has no ledger record yet. -/
theorem runCronTick_feeds_ledger :
    runCronTick kenv0 ruleSched inputCreate [ruleSched] [] =
      (.executed [ruleSchedTicked] [("ra-sched", 0)], []) ∧
    ruleSchedTicked.status.executions = [⟨"uid-1", "Create", 99⟩] ∧
    ruleSchedTicked.status.conditions =
      [⟨"Ready", "True", "ActionSucceeded", "All actions executed successfully", 1, 99⟩] := by
  refine ⟨by decide, by decide, by decide⟩

/-- C9 counterexample: the claim states that a task that self-terminates
because its owning rule is gone removes its own key from the registry.
On a tick with the owning rule absent the task stops, yet its key
`keySched` is still registered afterwards. -/
theorem runCronTick_stop_keeps_key :
    runCronTick kenv0 ruleSched inputCreate [] [(keySched, 0)] =
      (.stopped [], [(keySched, 0)]) ∧
    lookupJob [(keySched, 0)] keySched = some 0 := by
  refine ⟨by decide, by decide⟩

/-- C9 (amended): a task that self-terminates because its owning rule no
longer exists simply returns, leaving the registry unchanged (no code
path ever removes a key); consequently a later matching event cannot arm
the key again — existing bindings are preserved by `EnsureForMatch` and
no new task is ever started under a registered key. -/
theorem runCronTick_self_terminate_no_removal (env : KEnv) (ra : ResourceAction)
    (input : MatchInput) (store : List ResourceAction)
    (jobs : List (CronKey × Nat))
    (h1 : input.event ≠ EventType.delete)
    (h2 : findRA store ra.name ra.nspace = none) :
    runCronTick env ra input store jobs = (.stopped store, jobs) ∧
    ∀ k h, lookupJob jobs k = some h →
      ∀ input2 store2 nid,
        lookupJob (ensureForMatch input2 store2 jobs nid).1 k = some h ∧
        ∀ t ∈ (ensureForMatch input2 store2 jobs nid).2.2, t.key ≠ k := by
  refine ⟨by simp [runCronTick, h1, h2], ?_⟩
  intro k h hk input2 store2 nid
  exact ensureForMatch_preserves input2 store2 jobs nid k h hk

/-- C9 witness: the amended fact at a concrete input — the tick with the
owning rule gone keeps the registry, and a subsequent matching event
leaves the registered key's handle untouched. -/
theorem runCronTick_self_terminate_no_removal_witness :
    runCronTick kenv0 ruleA inputCreate [] [(keySched, 0)] =
      (.stopped [], [(keySched, 0)]) ∧
    lookupJob (ensureForMatch inputCreate [ruleSched] [(keySched, 0)] 7).1 keySched =
      some 0 := by
  have H := runCronTick_self_terminate_no_removal kenv0 ruleA inputCreate []
    [(keySched, 0)] (by decide) (by decide)
  exact ⟨H.1, (H.2 keySched 0 (by decide) inputCreate [ruleSched] 7).1⟩

/-- C4: when a rule's execution ledger already holds a record for the
event's `(objectUID, eventType)` pair, the dispatcher skips the whole
rule: no action is run, no HTTP-executor call is issued, no second record
is appended — and the remaining rules are processed exactly as if the
deduplicated rule were absent. -/
theorem execute_dedup_skips_rule (env : KEnv) (input : MatchInput)
    (ra : ResourceAction) (rest store : List ResourceAction)
    (calls : List (String × Nat))
    (h : alreadyExecuted ra input.obj.uid (eventString input.event) = true) :
    k8sExecGo env input (ra :: rest) store calls =
      k8sExecGo env input rest store calls :=
  k8sExecGo_skip_of_alreadyExecuted env input ra rest store calls h

/-- C4 witness: a rule holding the record `(uid-1, Create)` is skipped when
the identical event is dispatched again, even under an executor that
would fail. -/
theorem execute_dedup_skips_rule_witness :
    alreadyExecuted ruleDone "uid-1" "Create" = true ∧
    k8sExecGo kenvFail inputCreate [ruleDone, ruleB] [ruleDone, ruleB] [] =
      k8sExecGo kenvFail inputCreate [ruleB] [ruleDone, ruleB] [] :=
  ⟨by decide,
   execute_dedup_skips_rule kenvFail inputCreate ruleDone [ruleB]
     [ruleDone, ruleB] [] (by decide)⟩

/-- C10: persisting a failed action sequence appends the execution record
for `(objectUID, eventType)` alongside a `Ready=False/ActionFailed`
condition, the updated rule's ledger then answers `alreadyExecuted`
positively, and a later dispatch of the identical event skips the rule
entirely — a failed once-mode action sequence is never re-attempted. -/
theorem failed_rule_recorded_and_deduplicated (env : KEnv) (input : MatchInput)
    (latest : ResourceAction) (e : String) (rest store : List ResourceAction)
    (calls : List (String × Nat)) :
    (applyStatus latest ⟨input.obj.uid, eventString input.event, env.now⟩
        (some e) env.now).status.executions =
      latest.status.executions ++ [⟨input.obj.uid, eventString input.event, env.now⟩] ∧
    (∃ c', (applyStatus latest ⟨input.obj.uid, eventString input.event, env.now⟩
          (some e) env.now).status.conditions.find? (fun c => c.type == "Ready") = some c' ∧
      c'.status = "False" ∧ c'.reason = "ActionFailed" ∧ c'.message = e) ∧
    alreadyExecuted
      (applyStatus latest ⟨input.obj.uid, eventString input.event, env.now⟩
        (some e) env.now) input.obj.uid (eventString input.event) = true ∧
    k8sExecGo env input
      (applyStatus latest ⟨input.obj.uid, eventString input.event, env.now⟩
        (some e) env.now :: rest) store calls =
      k8sExecGo env input rest store calls := by
  have h1 : (applyStatus latest ⟨input.obj.uid, eventString input.event, env.now⟩
      (some e) env.now).status.executions =
      latest.status.executions ++ [⟨input.obj.uid, eventString input.event, env.now⟩] := by
    simp [applyStatus, setCondition]
  have h3 : alreadyExecuted
      (applyStatus latest ⟨input.obj.uid, eventString input.event, env.now⟩
        (some e) env.now) input.obj.uid (eventString input.event) = true := by
    simp [alreadyExecuted, h1, List.any_append]
  refine ⟨h1, ?_, h3, k8sExecGo_skip_of_alreadyExecuted env input _ rest store calls h3⟩
  exact setCondition_find _ ⟨"Ready", "False", "ActionFailed", e, 0, 0⟩ env.now

/-- C3 counterexample: the claim states that a failing action short-circuits
only its own rule and every other matched rule is still executed and
persisted.  With two matched rules and a failing executor, the dispatch
aborts after the first rule: `ruleB` is left untouched (no record, no
condition) and no call is issued for it. -/
theorem execute_abort_skips_later_rules :
    k8sExecute kenvFail [ruleA, ruleB] inputCreate =
      (.error "boom", [ruleAFailed, ruleB], [("ra-a", 0)]) ∧
    ruleB.status.executions = [] ∧ ruleB.status.conditions = [] := by
  refine ⟨by rfl, by decide, by decide⟩

/-- C3 (amended): a failing immediate action short-circuits the rule's
remaining actions, the rule's own status is still persisted (record plus
`Ready=False`), and the dispatcher then returns the error immediately:
matched rules later in the list are not executed for that event. -/
theorem execute_failure_short_circuits (env : KEnv) (input : MatchInput)
    (ra : ResourceAction) (rest store : List ResourceAction)
    (calls : List (String × Nat)) (e : String) (cs : List (String × Nat))
    (latest : ResourceAction)
    (h1 : matchesSelector ra.spec.selector input.gvk = true)
    (h2 : containsEvent ra.spec.events (eventString input.event) = true)
    (h3 : matchesFilters env.compileRegex ra.spec.filters input.obj = true)
    (h4 : alreadyExecuted ra input.obj.uid (eventString input.event) = false)
    (h5 : runActions env input ra ra.spec.actions 0 = (some e, cs))
    (h6 : findRA store ra.name ra.nspace = some latest) :
    k8sExecGo env input (ra :: rest) store calls =
      (.error e,
       updateRA store (applyStatus latest
         ⟨input.obj.uid, eventString input.event, env.now⟩ (some e) env.now),
       calls ++ cs) := by
  simp [k8sExecGo, h1, h2, h3, h4, h5, h6]

/-- C3 witness: the short-circuit equation at a concrete two-rule store with
a failing executor. -/
theorem execute_failure_short_circuits_witness :
    k8sExecGo kenvFail inputCreate [ruleA, ruleB] [ruleA, ruleB] [] =
      (.error "boom",
       updateRA [ruleA, ruleB] (applyStatus ruleA
         ⟨inputCreate.obj.uid, eventString inputCreate.event, kenvFail.now⟩
         (some "boom") kenvFail.now),
       [] ++ [("ra-a", 0)]) :=
  execute_failure_short_circuits kenvFail inputCreate ruleA [ruleB]
    [ruleA, ruleB] [] "boom" [("ra-a", 0)] ruleA
    (by decide) (by decide) (by decide) (by decide) (by decide) (by decide)

/-- A stored Ready condition with status True and transition time 50. -/
def storedC5 : Condition := ⟨"Ready", "True", "ActionSucceeded", "ok", 0, 50⟩

/-- A fresh Ready condition with status False and zero transition time. -/
def condC5 : Condition := ⟨"Ready", "False", "ActionFailed", "retry later", 0, 0⟩

/-- A rule whose status holds `storedC5`. -/
def ruleC5 : ResourceAction := { ruleA with status := ⟨[], "", [storedC5]⟩ }

/-- C5: updating a stored condition of the same type keeps the written
status/reason/message and stamps `lastTransitionTime` with the current
time exactly when the stored status differs from the new one (so, when
the clock moved, the transition time changes iff the status changed —
reason/message-only updates preserve it); a condition of a new type
(written with a zero transition time, as both call sites do) gets the
current time. -/
theorem setCondition_transition_time (ra : ResourceAction) (cond : Condition)
    (now : Nat) :
    (∀ stored, ra.status.conditions.find? (fun c => c.type == cond.type) = some stored →
      ∃ c', (setCondition ra cond now).status.conditions.find?
              (fun c => c.type == cond.type) = some c' ∧
        c'.status = cond.status ∧ c'.reason = cond.reason ∧ c'.message = cond.message ∧
        c'.lastTransitionTime =
          (if stored.status = cond.status then stored.lastTransitionTime else now) ∧
        (now ≠ stored.lastTransitionTime →
          (c'.lastTransitionTime ≠ stored.lastTransitionTime ↔
            ¬ stored.status = cond.status))) ∧
    (ra.status.conditions.find? (fun c => c.type == cond.type) = none →
      cond.lastTransitionTime = 0 →
      ∃ c', (setCondition ra cond now).status.conditions.find?
              (fun c => c.type == cond.type) = some c' ∧
        c'.lastTransitionTime = now ∧ c'.status = cond.status ∧
        c'.reason = cond.reason) := by
  constructor
  · intro stored hf
    simp only [setCondition]
    split
    · refine ⟨_, setCondList_find_some
        ⟨cond.type, cond.status, cond.reason, cond.message, ra.generation, now⟩
        now ra.status.conditions stored hf, ?_⟩
      by_cases hs : stored.status = cond.status
      · simp [hs]
      · rw [if_neg hs]
        refine ⟨rfl, rfl, rfl, by rw [if_neg hs], ?_⟩
        intro hne
        simp [hs, hne]
    · refine ⟨_, setCondList_find_some
        ⟨cond.type, cond.status, cond.reason, cond.message, ra.generation,
         cond.lastTransitionTime⟩
        now ra.status.conditions stored hf, ?_⟩
      by_cases hs : stored.status = cond.status
      · simp [hs]
      · rw [if_neg hs]
        refine ⟨rfl, rfl, rfl, by rw [if_neg hs], ?_⟩
        intro hne
        simp [hs, hne]
  · intro hf h0
    simp only [setCondition, h0, if_pos]
    refine ⟨_, setCondList_find_none_self ra.status.conditions
      ⟨cond.type, cond.status, cond.reason, cond.message, ra.generation, now⟩
      now hf, rfl, rfl, rfl⟩

/-- C5 witness: the same-type branch at a concrete stored condition with
status True, updated to status False at time 99. -/
theorem setCondition_transition_time_witness :
    ∃ c', (setCondition ruleC5 condC5 99).status.conditions.find?
            (fun c => c.type == condC5.type) = some c' ∧
      c'.status = condC5.status ∧ c'.reason = condC5.reason ∧
      c'.message = condC5.message ∧
      c'.lastTransitionTime =
        (if storedC5.status = condC5.status then storedC5.lastTransitionTime else 99) ∧
      (99 ≠ storedC5.lastTransitionTime →
        (c'.lastTransitionTime ≠ storedC5.lastTransitionTime ↔
          ¬ storedC5.status = condC5.status)) :=
  (setCondition_transition_time ruleC5 condC5 99).1 storedC5 (by decide)

/-- One early-return regex clause of `matchesFilters` equals the
corresponding conjunct of the spec's filter predicate. -/
theorem regex_clause (compile : String → Option (String → Bool))
    (pat s : String) (C : Bool) :
    (if pat != "" &&
        (match compile pat with
         | none => true
         | some re => !(re s)) then
      false
    else C) = (regexAccepts compile pat s && C) := by
  by_cases hp : pat = ""
  · simp [hp, regexAccepts]
  · cases hc : compile pat with
    | none => simp [regexAccepts, hp, hc, bne_iff_ne]
    | some re => cases hr : re s <;> simp [regexAccepts, hp, hc, hr, bne_iff_ne]

/-- The label clause of `matchesFilters` equals the spec's label
conjunction (the `length > 0` guard is redundant). -/
theorem label_clause (l : List (String × String)) (p : String × String → Bool) :
    (if decide (l.length > 0) && !(l.all p) then false else true) = l.all p := by
  cases l with
  | nil => simp
  | cons a t => cases h : (a :: t).all p <;> simp [h]

/-- C6: the implemented filter predicate coincides with the spec's
conjunctive predicate for every regexp engine, filter and object: name
regex (when set) AND namespace regex (when set) AND all declared label
equalities; an absent filter matches everything, and a pattern that
fails to compile makes its clause (and hence the filter) reject. -/
theorem matchesFilters_eq_spec (compile : String → Option (String → Bool))
    (filter : Option FilterSpec) (obj : ObjectSnapshot) :
    matchesFilters compile filter obj = filterSpecPred compile filter obj := by
  cases filter with
  | none => rfl
  | some f =>
    simp only [matchesFilters, filterSpecPred]
    rw [label_clause, regex_clause, regex_clause, Bool.and_assoc]

/-- C7 counterexample: the claim places the pre-delay of retried attempt
`n ≥ 2` in `[min(base·2^(n-1), max), min(base·2^(n-1), max)·1.25)`.  In
a concrete run (base 500ms, max 10s, one 503 retried before attempt 2),
the recorded pre-delay of attempt 2 is 500ms, strictly below the
claimed lower bound `min(500ms·2^(2-1), 10s) = 1s`. -/
theorem backoff_delay_claim_cex :
    (httpExecute henv0 action503 "ns" objA []).2.2 = [(1, 500000000)] ∧
    ¬ (Nat.min (500000000 * 2 ^ (2 - 1)) 10000000000 ≤ 500000000) := by
  refine ⟨by decide, by decide⟩

/-- C7 (amended): attempt 1 has zero pre-delay (every recorded sleep
follows an attempt `n ≥ 1`, so it precedes an attempt `n + 1 ≥ 2`), and
the sleep recorded after attempt `n` — the pre-delay of retried attempt
`n+1` — equals `backoffSleep` at `n` (equivalently, the pre-delay of
retried attempt `k ≥ 2` uses exponent `k-2`, not the claim's `k-1`).
When `m = min(backoffBase·2^(n-1), maxBackoff)` is positive, the
exponential product fits in `int64`, and the jittered sum does too
(`5·m < 2^65`), that delay lies in `[m, m·1.25)`; beyond those bounds
Go's `int64` arithmetic wraps and the computed delay can be negative
(slept as zero), so no such bound holds there. -/
theorem backoff_delay_bounds (env : HttpEnv) (action : ActionSpec)
    (ns : String) (obj : ObjectSnapshot) (hdrs : List (String × String))
    (nd : Nat × Int) (hnd : nd ∈ (httpExecute env action ns obj hdrs).2.2) :
    1 ≤ nd.1 ∧
    nd.2 = backoffSleep
      ((deriveRetry env.parseDuration action.retry).backoffBase : Int)
      ((deriveRetry env.parseDuration action.retry).maxBackoff : Int)
      nd.1 (env.draw nd.1) ∧
    (0 < Nat.min ((deriveRetry env.parseDuration action.retry).backoffBase * 2 ^ (nd.1 - 1))
        (deriveRetry env.parseDuration action.retry).maxBackoff →
     (deriveRetry env.parseDuration action.retry).backoffBase * 2 ^ (nd.1 - 1) < 2 ^ 63 →
     5 * Nat.min ((deriveRetry env.parseDuration action.retry).backoffBase * 2 ^ (nd.1 - 1))
        (deriveRetry env.parseDuration action.retry).maxBackoff < 2 ^ 65 →
      ((Nat.min ((deriveRetry env.parseDuration action.retry).backoffBase * 2 ^ (nd.1 - 1))
        (deriveRetry env.parseDuration action.retry).maxBackoff : Nat) : Int) ≤ nd.2 ∧
      4 * nd.2 < 5 * ((Nat.min
        ((deriveRetry env.parseDuration action.retry).backoffBase * 2 ^ (nd.1 - 1))
        (deriveRetry env.parseDuration action.retry).maxBackoff : Nat) : Int)) := by
  cases htr : env.buildTransport action.tls with
  | error e => simp [httpExecute, htr] at hnd
  | ok u =>
    cases hrb : renderBody env action obj with
    | error e => simp [httpExecute, htr, hrb] at hnd
    | ok b =>
      cases hcr : env.compileRegex
          (if action.expectedStatus = "" then "^2..$" else action.expectedStatus) with
      | none => simp [httpExecute, htr, hrb, hcr] at hnd
      | some re =>
        have hnd2 : nd ∈ (execLoop env re (deriveRetry env.parseDuration action.retry)
            (if action.method = "" then "POST" else action.method) action.url b
            1 (deriveRetry env.parseDuration action.retry).maxAttempts).2.2 := by
          simpa [httpExecute, htr, hrb, hcr] using hnd
        have h := execLoop_sleeps env re (deriveRetry env.parseDuration action.retry)
          (if action.method = "" then "POST" else action.method) action.url b
          (deriveRetry env.parseDuration action.retry).maxAttempts 1 nd hnd2
        refine ⟨h.1, h.2, ?_⟩
        intro hpos hfit hsum
        rw [h.2]
        exact backoffSleep_bounds _ _ _ _ hfit hsum hpos

/-- C7 witness: the amended bounds at the concrete 503-then-200 run — the
sole recorded sleep follows attempt 1, the no-overflow provisos hold at
the default policy, and the delay satisfies the stated bounds. -/
theorem backoff_delay_bounds_witness :
    1 ≤ ((1, 500000000) : Nat × Int).1 ∧
    ((1, 500000000) : Nat × Int).2 = backoffSleep
      ((deriveRetry henv0.parseDuration action503.retry).backoffBase : Int)
      ((deriveRetry henv0.parseDuration action503.retry).maxBackoff : Int)
      ((1, 500000000) : Nat × Int).1 (henv0.draw ((1, 500000000) : Nat × Int).1) ∧
    (0 < Nat.min ((deriveRetry henv0.parseDuration action503.retry).backoffBase *
          2 ^ (((1, 500000000) : Nat × Int).1 - 1))
        (deriveRetry henv0.parseDuration action503.retry).maxBackoff →
     (deriveRetry henv0.parseDuration action503.retry).backoffBase *
          2 ^ (((1, 500000000) : Nat × Int).1 - 1) < 2 ^ 63 →
     5 * Nat.min ((deriveRetry henv0.parseDuration action503.retry).backoffBase *
          2 ^ (((1, 500000000) : Nat × Int).1 - 1))
        (deriveRetry henv0.parseDuration action503.retry).maxBackoff < 2 ^ 65 →
      ((Nat.min ((deriveRetry henv0.parseDuration action503.retry).backoffBase *
          2 ^ (((1, 500000000) : Nat × Int).1 - 1))
        (deriveRetry henv0.parseDuration action503.retry).maxBackoff : Nat) : Int) ≤
        ((1, 500000000) : Nat × Int).2 ∧
      4 * ((1, 500000000) : Nat × Int).2 < 5 * ((Nat.min
        ((deriveRetry henv0.parseDuration action503.retry).backoffBase *
          2 ^ (((1, 500000000) : Nat × Int).1 - 1))
        (deriveRetry henv0.parseDuration action503.retry).maxBackoff : Nat) : Int)) :=
  backoff_delay_bounds henv0 action503 "ns" objA [] (1, 500000000) (by decide)

/-- C8 counterexample: the claim says the body is rendered against the fixed
context `(name, namespace, uid, labels)` of the snapshot.  With a
templating engine that reads the `kind` attribute, the request actually
sent carries body "Pod" (rendered from the full raw object), while
rendering against the claimed fixed context fails — the context the code
passes is the full object, not the 4-field projection. -/
theorem render_context_claim_cex :
    (httpExecute henvK actionBody "ns" objA []).2.1 =
      [⟨"POST", "http://example/hook", "Pod"⟩] ∧
    henvK.render "tpl" (specBodyContext objA) = .error "no kind" := by
  refine ⟨by decide, by rfl⟩

/-- C8 (amended): the body is rendered exactly once, before the retry loop,
against the full raw object snapshot (`obj.Object`, whose metadata
includes name/namespace/uid/labels): a rendering failure is returned as
the terminal error with no request sent and no backoff slept, and on
success every attempt of the retry loop sends the same pre-rendered
bytes. -/
theorem render_once_before_retry (env : HttpEnv) (action : ActionSpec)
    (ns : String) (obj : ObjectSnapshot) (hdrs : List (String × String))
    (ht : env.buildTransport action.tls = .ok ()) :
    (∀ e, renderBody env action obj = .error e →
      httpExecute env action ns obj hdrs = (.error e, [], [])) ∧
    (∀ b, renderBody env action obj = .ok b →
      ∀ r ∈ (httpExecute env action ns obj hdrs).2.1, r.body = b) := by
  constructor
  · intro e he
    simp [httpExecute, ht, he]
  · intro b hb r hr
    cases hcr : env.compileRegex
        (if action.expectedStatus = "" then "^2..$" else action.expectedStatus) with
    | none => simp [httpExecute, ht, hb, hcr] at hr
    | some re =>
      have hr2 : r ∈ (execLoop env re (deriveRetry env.parseDuration action.retry)
          (if action.method = "" then "POST" else action.method) action.url b
          1 (deriveRetry env.parseDuration action.retry).maxAttempts).2.1 := by
        simpa [httpExecute, ht, hb, hcr] using hr
      exact execLoop_body env re (deriveRetry env.parseDuration action.retry)
        (if action.method = "" then "POST" else action.method) action.url b
        (deriveRetry env.parseDuration action.retry).maxAttempts 1 r hr2

/-- C8 witness: with a templating engine that always fails, `Execute`
returns the render error with no request sent and no sleep. -/
theorem render_once_before_retry_witness :
    httpExecute henvRF actionBody "ns" objA [] = (.error "tpl boom", [], []) :=
  (render_once_before_retry henvRF actionBody "ns" objA [] rfl).1 "tpl boom" rfl

end RAO
